import Mathlib

/-!
Shallow embedding of the CSV-ingestion and per-temperature model-fitting
pipeline of the microbial-survival-modeling repository.

Sources embedded:
  * `src/unnamed/part_008` (heuristic CSV parsing, per-temperature linear and
    Weibull fitting, the "Per Temperature" fit result);
  * `src/src/utils/microbialUtils.ts` (strict CSV parsing, per-temperature
    linear fit with rmse/mae/r2 metrics, simulated non-analytic models).

Modelling conventions:
  * A JavaScript number is idealised as a rational (`ℚ`) when finite, with
    `none : Option ℚ` standing for any non-finite value (`NaN`, `undefined`);
    floating-point rounding and overflow to `±Infinity` are not modelled.
    All fit arithmetic (sums, regression coefficients, metrics, fitted
    values) is carried out in `ℝ`, with rationals cast at the leaves, so
    that `Math.exp` / `Math.pow` / `Math.sqrt` become `Real.exp`, `Real.rpow`
    and `Real.sqrt`.  Division by zero yields `0` in Lean where JavaScript
    would produce `NaN`/`Infinity`; the spots where this matters are noted.
  * A parsed CSV cell is either a number or a text (`CellVal`); rows keep
    the full column map (`extra`, insertion-ordered association list
    mirroring a JS object) next to the three normalised numeric fields.
  * `Math.random()` is an oracle `rand : ℕ → ℝ` consumed left to right; the
    draw counter is threaded explicitly through the fit loop.
  * `await`/`setTimeout` suspensions are dropped: the functions are pure.
-/

/-- A parsed CSV cell: either a finite number or retained text.  (The
`DataRow` index signature also admits booleans and `null`, but the parsers
under embedding only ever produce numbers and strings.) -/
inductive CellVal where
  | num (q : ℚ)
  | str (s : String)
deriving DecidableEq, Repr

/-- Row type `ExpectedRow` of both source files: the three normalised numeric fields
(`none` = `undefined`/`NaN`), the raw column map carried along as
pass-through data, and the `microbe_fitted` output field (real-valued,
populated only by the fitters). -/
structure ExpectedRow where
  time : Option ℚ := none
  temperature : Option ℚ := none
  microbe : Option ℚ := none
  extra : List (String × CellVal) := []
  microbe_fitted : Option ℝ := none

/-- JavaScript `Math.max(...l)` for a nonempty list of finite numbers (all
call sites are guarded by a nonempty `valid` subset; the empty case of the
source would give `-Infinity`, which never occurs). -/
def listMaxQ : List ℚ → ℚ
  | [] => 0
  | a :: as => as.foldl max a

/-- JavaScript `Math.min(...l)`, same conventions as `listMaxQ`. -/
def listMinQ : List ℚ → ℚ
  | [] => 0
  | a :: as => as.foldl min a

/-- The `valid` filter of both fitters: a row participates in fitting iff
`typeof r.time === "number" && Number.isFinite(r.time)` and likewise for
`microbe`; in the embedding, iff both fields are `some`. -/
def isValidRow (r : ExpectedRow) : Bool :=
  r.time.isSome && r.microbe.isSome

/-- Filter `group.data.filter(r => ... isFinite(r.time) ... isFinite(r.microbe))`. -/
def validRows (rows : List ExpectedRow) : List ExpectedRow :=
  rows.filter isValidRow

/-- Read `Number(row.time) || 0`: `undefined`/`NaN` give `0`, a finite number
gives itself (also when it is `0`). -/
def timeOr0 (r : ExpectedRow) : ℚ :=
  r.time.getD 0

/-- Read `r.microbe || 0`, as used by the Weibull branch and the simulated-model
branch. -/
def microbeOr0 (r : ExpectedRow) : ℚ :=
  r.microbe.getD 0

/-- The ascending list of distinct finite temperatures of the input: the
keys of the `groups` record of `groupDataByTemperature`, in the order
produced by the final `.sort((a, b) => a.temperature - b.temperature)`. -/
def sortedTemps (data : List ExpectedRow) : List ℚ :=
  ((data.filterMap (fun r => r.temperature)).dedup).insertionSort (· ≤ ·)

/-- Function `groupDataByTemperature` (identical in `part_008` and
`microbialUtils.ts`): rows with finite `temperature` are pushed, in input
order, onto the bucket of their exact temperature; the buckets are then
listed sorted ascending by temperature.  A bucket therefore equals the
input filtered to that temperature, and the bucket list ranges over the
distinct finite temperatures in ascending order. -/
def groupDataByTemperature (data : List ExpectedRow) : List (ℚ × List ExpectedRow) :=
  (sortedTemps data).map
    (fun t => (t, data.filter (fun r => r.temperature == some t)))

/-- Cast of `timeOr0` to `ℝ`, where the fit arithmetic happens. -/
noncomputable def timeR (r : ExpectedRow) : ℝ :=
  (timeOr0 r : ℝ)

/-- Cast of `microbeOr0` to `ℝ`.  On `valid` rows this coincides with the
non-null assertion `r.microbe!` of `microbialUtils.ts`. -/
noncomputable def microbeR (r : ExpectedRow) : ℝ :=
  (microbeOr0 r : ℝ)

/-- The two model kinds of `part_008`'s `fitMicrobialModel`. -/
inductive Model8 where
  | linear
  | weibull
deriving DecidableEq, Repr

/-- Result record of `part_008`'s `fitMicrobialModel` (the source nests
`averageRSquared` and `temperatureParameters` inside a `parameters` object;
`averageRSquared` always equals the top-level `rSquared`, so it is not
duplicated here). -/
structure Fit8Result where
  modelName : String
  rSquared : ℝ
  temperatureParameters : List (ℚ × List (String × ℝ))
  fittedData : List ExpectedRow

/-- Body of the per-temperature loop of `part_008`'s `fitMicrobialModel`:
`none` when the group is skipped (`valid.length < 2`, the `continue`),
otherwise the fitted rows, the group's `R²`, and the group's parameter
record. -/
noncomputable def fitGroup8 (model : Model8) (rows : List ExpectedRow) :
    Option (List ExpectedRow × ℝ × List (String × ℝ)) :=
  let valid := validRows rows
  if valid.length < 2 then none
  else some (match model with
  | .linear =>
    let n : ℝ := valid.length
    let sumX : ℝ := (valid.map timeR).sum
    let sumY : ℝ := (valid.map microbeR).sum
    let sumXY : ℝ := (valid.map (fun r => timeR r * microbeR r)).sum
    let sumX2 : ℝ := (valid.map (fun r => timeR r ^ 2)).sum
    let slope : ℝ := (n * sumXY - sumX * sumY) / (n * sumX2 - sumX ^ 2)
    let intercept : ℝ := (sumY - slope * sumX) / n
    let fitted := rows.map (fun row =>
      { row with microbe_fitted := some (intercept + slope * timeR row) })
    let yMean := sumY / n
    let ssTot := (valid.map (fun r => (microbeR r - yMean) ^ 2)).sum
    let ssRes := (valid.map (fun r =>
      (microbeR r - (intercept + slope * timeR r)) ^ 2)).sum
    let r2 : ℝ := if 0 < ssTot then 1 - ssRes / ssTot else 1
    (fitted, r2, [("intercept", intercept), ("slope", slope)])
  | .weibull =>
    let initialMicrobe : ℝ := (listMaxQ (valid.map microbeOr0) : ℝ)
    let finalMicrobe : ℝ := (listMinQ (valid.map microbeOr0) : ℝ)
    let maxTime : ℝ := (listMaxQ (valid.map timeOr0) : ℝ)
    let delta : ℝ := maxTime * 0.8
    let p : ℝ := 1.2
    let fitted := rows.map (fun row =>
      { row with microbe_fitted := some (initialMicrobe +
          (finalMicrobe - initialMicrobe) *
            (1 - Real.exp (-((timeR row / delta) ^ p)))) })
    let yMean := (valid.map microbeR).sum / (valid.length : ℝ)
    let ssTot := (valid.map (fun r => (microbeR r - yMean) ^ 2)).sum
    let ssRes := (valid.map (fun r =>
      (microbeR r - (initialMicrobe + (finalMicrobe - initialMicrobe) *
        (1 - Real.exp (-((timeR r / delta) ^ p))))) ^ 2)).sum
    let r2 : ℝ := if 0 < ssTot then 1 - ssRes / ssTot else 1
    (fitted, r2, [("delta", delta), ("p", p), ("initialMicrobe", initialMicrobe)]))

/-- The `for (const group of temperatureGroups)` loop of `part_008`:
accumulates the concatenated fitted rows, the running `totalRSquared` and
the per-temperature parameter map, skipping groups whose `valid` subset has
fewer than 2 rows. -/
noncomputable def fit8Loop (model : Model8) :
    List (ℚ × List ExpectedRow) → List ExpectedRow × ℝ × List (ℚ × List (String × ℝ))
  | [] => ([], 0, [])
  | g :: gs =>
    match fitGroup8 model g.2 with
    | none => fit8Loop model gs
    | some (fitted, r2, ps) =>
      let rest := fit8Loop model gs
      (fitted ++ rest.1, r2 + rest.2.1, (g.1, ps) :: rest.2.2)

/-- Fitter `fitMicrobialModel` of `part_008`: errors (the promise rejection) only
when `groupDataByTemperature` produced no groups at all; otherwise runs the
per-group loop and divides `totalRSquared` by the number of **all** groups
(`temperatureGroups.length`), skipped ones included. -/
noncomputable def fitMicrobialModel8 (data : List ExpectedRow) (model : Model8) :
    Except String Fit8Result :=
  let temperatureGroups := groupDataByTemperature data
  if temperatureGroups.isEmpty then
    Except.error "No valid data groups for fitting."
  else
    let res := fit8Loop model temperatureGroups
    Except.ok
      { modelName :=
          (match model with
           | .linear => "Linear Regression"
           | .weibull => "Weibull Model") ++ " (Per Temperature)"
        rSquared := res.2.1 / (temperatureGroups.length : ℝ)
        temperatureParameters := res.2.2
        fittedData := res.1 }

/-- The model kinds of `microbialUtils.ts`'s `fitMicrobialModel`. -/
inductive ModelM where
  | linear
  | ann
  | svr
  | gpr
  | knn
  | decision_tree
deriving DecidableEq, Repr

/-- The `{ rmse, mae, r2 }` metric triple of `microbialUtils.ts`. -/
structure Metrics where
  rmse : ℝ
  mae : ℝ
  r2 : ℝ

/-- Helper `computeMetrics` of `microbialUtils.ts`: residuals of the `valid`
subset against `predictFn`, with `r2 = ssTot > 0 ? 1 - ssRes / ssTot : 1`
computed from the group's own mean. -/
noncomputable def computeMetrics (valid : List ExpectedRow) (predictFn : ℝ → ℝ) : Metrics :=
  let errors := valid.map (fun r => microbeR r - predictFn (timeR r))
  let mse := (errors.map (fun e => e * e)).sum / (errors.length : ℝ)
  let rmse := Real.sqrt mse
  let mae := (errors.map (fun e => |e|)).sum / (errors.length : ℝ)
  let yMean := (valid.map microbeR).sum / (valid.length : ℝ)
  let ssTot := (valid.map (fun r => (microbeR r - yMean) ^ 2)).sum
  let ssRes := (errors.map (fun e => e * e)).sum
  let r2 : ℝ := if 0 < ssTot then 1 - ssRes / ssTot else 1
  ⟨rmse, mae, r2⟩

/-- Body of the per-temperature loop of `microbialUtils.ts`'s
`fitMicrobialModel`.  `rand` is the `Math.random()` oracle and `idx` the
number of draws consumed so far; the returned `ℕ` is the number of draws
this group consumed (the simulated branch draws once per row of the group,
then once each for `fakeR2`, `fakeRMSE` and `fakeMAE`). -/
noncomputable def fitGroupM (rand : ℕ → ℝ) (model : ModelM) (idx : ℕ)
    (rows : List ExpectedRow) : Option (List ExpectedRow × Metrics × ℕ) :=
  let valid := validRows rows
  if valid.length < 2 then none
  else some (match model with
  | .linear =>
    let n : ℝ := valid.length
    let sumX : ℝ := (valid.map timeR).sum
    let sumY : ℝ := (valid.map microbeR).sum
    let sumXY : ℝ := (valid.map (fun r => timeR r * microbeR r)).sum
    let sumX2 : ℝ := (valid.map (fun r => timeR r * timeR r)).sum
    let slope : ℝ := (n * sumXY - sumX * sumY) / (n * sumX2 - sumX ^ 2)
    let intercept : ℝ := (sumY - slope * sumX) / n
    let fitted := rows.map (fun r =>
      { r with microbe_fitted := some (intercept + slope * timeR r) })
    (fitted, computeMetrics valid (fun t => intercept + slope * t), 0)
  | _ =>
    let noiseScale : ℝ := if model = ModelM.ann then 0.12 else 0.08
    let fitted := rows.enum.map (fun jr =>
      { jr.2 with microbe_fitted := some (microbeR jr.2 *
          (1 + (rand (idx + jr.1) - 0.5) * noiseScale)) })
    let fakeR2 : ℝ := 0.85 + rand (idx + rows.length) * 0.10
    let fakeRMSE : ℝ := (1 - fakeR2) * 3.5 + rand (idx + rows.length + 1) * 0.3
    let fakeMAE : ℝ := fakeRMSE * (0.75 + rand (idx + rows.length + 2) * 0.15)
    (fitted, ⟨fakeRMSE, fakeMAE, fakeR2⟩, rows.length + 3))

/-- Accumulator of the `microbialUtils.ts` fit loop: `allFittedData`, the
three running metric sums of `allMetrics`, and `tempCount`. -/
structure MLoopAcc where
  fittedData : List ExpectedRow
  rmseSum : ℝ
  maeSum : ℝ
  r2Sum : ℝ
  tempCount : ℕ

/-- The `for (const group of temperatureGroups)` loop of
`microbialUtils.ts`: skipped groups (fewer than 2 valid rows) contribute
nothing and consume no random draws; fit groups append their fitted rows,
add their metrics to the running sums and bump `tempCount`. -/
noncomputable def fitMLoop (rand : ℕ → ℝ) (model : ModelM) :
    List (ℚ × List ExpectedRow) → ℕ → MLoopAcc
  | [], _ => ⟨[], 0, 0, 0, 0⟩
  | g :: gs, idx =>
    match fitGroupM rand model idx g.2 with
    | none => fitMLoop rand model gs idx
    | some (fitted, m, consumed) =>
      let rest := fitMLoop rand model gs (idx + consumed)
      ⟨fitted ++ rest.fittedData, m.rmse + rest.rmseSum, m.mae + rest.maeSum,
        m.r2 + rest.r2Sum, rest.tempCount + 1⟩

/-- The `modelLabel` lookup table of `microbialUtils.ts`. -/
def modelLabel : ModelM → String
  | .linear => "LINEAR"
  | .ann => "ANN"
  | .svr => "SVR"
  | .gpr => "GPR"
  | .knn => "KNN"
  | .decision_tree => "DT"

/-- Result record of `microbialUtils.ts`'s `fitMicrobialModel` (the source
also returns `parameters: {}`, a constant empty object, omitted here). -/
structure FitMResult where
  modelName : String
  metrics : Metrics
  fittedData : List ExpectedRow

/-- Fitter `fitMicrobialModel` of `microbialUtils.ts`: errors only when there are
no temperature groups at all; otherwise averages the accumulated metric
sums over `tempCount`, the number of groups actually fit.  (When every
group is skipped, `tempCount = 0` and JavaScript produces `NaN` metrics;
the embedding's division by zero yields `0` instead — the function still
returns a result rather than failing, which is the only fact the theorems
below use about that corner.) -/
noncomputable def fitMicrobialModel (rand : ℕ → ℝ) (data : List ExpectedRow)
    (model : ModelM) : Except String FitMResult :=
  let temperatureGroups := groupDataByTemperature data
  if temperatureGroups.isEmpty then
    Except.error "No valid data groups for fitting."
  else
    let acc := fitMLoop rand model temperatureGroups 0
    Except.ok
      { modelName := modelLabel model
        metrics := ⟨acc.rmseSum / (acc.tempCount : ℝ),
                    acc.maeSum / (acc.tempCount : ℝ),
                    acc.r2Sum / (acc.tempCount : ℝ)⟩
        fittedData := acc.fittedData }

/-- Specification-side list of the per-group metric triples of the groups
that `microbialUtils.ts`'s fit loop actually fits, with the same
random-draw threading; skipped groups are absent (not zero). -/
noncomputable def groupMetricsList (rand : ℕ → ℝ) (model : ModelM) :
    List (ℚ × List ExpectedRow) → ℕ → List Metrics
  | [], _ => []
  | g :: gs, idx =>
    match fitGroupM rand model idx g.2 with
    | none => groupMetricsList rand model gs idx
    | some (_, m, consumed) => m :: groupMetricsList rand model gs (idx + consumed)

/-- The temperature groups that the fitters actually fit: those whose
`valid` subset has at least 2 rows. -/
def fittedGroups (data : List ExpectedRow) : List (ℚ × List ExpectedRow) :=
  (groupDataByTemperature data).filter (fun g => 2 ≤ (validRows g.2).length)

/-- Trim of a character list, mirroring JavaScript `String.prototype.trim`
(the Unicode whitespace sets of JS and of `Char.isWhitespace` agree on all
characters appearing in this development). -/
def trimChars (cs : List Char) : List Char :=
  ((cs.dropWhile Char.isWhitespace).reverse.dropWhile Char.isWhitespace).reverse

/-- JavaScript `s.trim()`. -/
def jsTrim (s : String) : String :=
  String.mk (trimChars s.data)

/-- Splitter for `text.split(/\r\n|\n/)` (also `/\r?\n/`): a `"\r\n"` pair
or a lone `"\n"` ends a line; a lone `"\r"` stays inside its line. -/
def splitLinesAux : List Char → List Char → List String
  | [], cur => [String.mk cur.reverse]
  | '\r' :: '\n' :: rest, cur => String.mk cur.reverse :: splitLinesAux rest []
  | '\n' :: rest, cur => String.mk cur.reverse :: splitLinesAux rest []
  | c :: rest, cur => splitLinesAux rest (c :: cur)

/-- JavaScript `text.split(/\r\n|\n/)`. -/
def jsSplitNewlines (text : String) : List String :=
  splitLinesAux text.data []

/-- Splitter for the plain `line.split(",")` used on header lines. -/
def splitCommaAux : List Char → List Char → List String
  | [], cur => [String.mk cur.reverse]
  | ',' :: rest, cur => String.mk cur.reverse :: splitCommaAux rest []
  | c :: rest, cur => splitCommaAux rest (c :: cur)

/-- JavaScript `line.split(",")`. -/
def jsSplitComma (s : String) : List String :=
  splitCommaAux s.data []

/-- JavaScript `s.toLowerCase()` (ASCII payloads only in this pipeline). -/
def jsToLower (s : String) : String :=
  String.mk (s.data.map Char.toLower)

/-- Character loop of `splitCSVLine`: a straight or curly double quote
toggles the `inQuotes` flag and is dropped; a comma outside quotes ends the
current field; every field is trimmed as it is emitted. -/
def splitCSVLineAux : List Char → Bool → List Char → List String
  | [], _, cur => [jsTrim (String.mk cur.reverse)]
  | c :: rest, inQuotes, cur =>
    if c = '"' ∨ c = '“' ∨ c = '”' then
      splitCSVLineAux rest (!inQuotes) cur
    else if c = ',' ∧ inQuotes = false then
      jsTrim (String.mk cur.reverse) :: splitCSVLineAux rest inQuotes []
    else
      splitCSVLineAux rest inQuotes (c :: cur)

/-- Function `splitCSVLine` (identical in `part_008` and `microbialUtils.ts`):
splits a CSV data line on commas, treating quoted segments as opaque. -/
def splitCSVLine (line : String) : List String :=
  splitCSVLineAux line.data false []

/-- Numeric value of a decimal digit. -/
def digitVal (c : Char) : ℕ :=
  c.toNat - 48

/-- Value of a digit string. -/
def natOfDigits (ds : List Char) : ℕ :=
  ds.foldl (fun a c => a * 10 + digitVal c) 0

/-- Longest digit run at the head of the input, with the remainder. -/
def takeDigits : List Char → List Char × List Char
  | [] => ([], [])
  | c :: rest =>
    if c.isDigit then
      let p := takeDigits rest
      (c :: p.1, p.2)
    else ([], c :: rest)

/-- Optional leading sign; returns whether it was `-` and the remainder. -/
def parseSign : List Char → Bool × List Char
  | '-' :: rest => (true, rest)
  | '+' :: rest => (false, rest)
  | cs => (false, cs)

/-- Exponent tail `(e[-+]?\d+)?` anchored at the end of the input: `some e`
when the remainder is empty or a well-formed exponent part, else `none`. -/
def parseExpPart : List Char → Option ℤ
  | [] => some 0
  | c :: rest =>
    if c = 'e' ∨ c = 'E' then
      let sgn := parseSign rest
      let ds := takeDigits sgn.2
      if ds.1.isEmpty ∨ ¬ ds.2.isEmpty then none
      else some (if sgn.1 then -(natOfDigits ds.1 : ℤ) else (natOfDigits ds.1 : ℤ))
    else none

/-- Rational value of a sign, digit strings and decimal exponent:
`± (d₁d₂) · 10 ^ (e − |d₂|)`. -/
def decValue (neg : Bool) (ds1 ds2 : List Char) (e : ℤ) : ℚ :=
  let mant : ℚ := (natOfDigits (ds1 ++ ds2) : ℚ) * (10 : ℚ) ^ (e - ds2.length)
  if neg then -mant else mant

/-- The numeric-literal gate of `part_008`'s coercion:
`v.match(/^[-+]?\d*\.?\d+(e[-+]?\d+)?$/i)`, returning the value when the
whole string matches.  (The source also tests `!Number.isNaN(Number(v))`,
which every string in this language already satisfies, so that conjunct is
subsumed.) -/
def regexNumValue (s : String) : Option ℚ :=
  let sgn := parseSign s.data
  let d1 := takeDigits sgn.2
  match d1.2 with
  | '.' :: cs2 =>
    let d2 := takeDigits cs2
    if d2.1.isEmpty then none
    else (parseExpPart d2.2).map (decValue sgn.1 d1.1 d2.1)
  | cs1 =>
    if d1.1.isEmpty then none
    else (parseExpPart cs1).map (decValue sgn.1 d1.1 [])

/-- Decimal part of JavaScript `Number(string)`:
`sign? (digits ('.' digits?)? | '.' digits) exponent?`.  Unlike the regex
gate above, a trailing point (`"5."`) is accepted.  The `Number` grammar's
hex/octal/binary literals and `"Infinity"` are not modelled and map to
`none`; nothing in the pipeline feeds such strings to `Number`. -/
def jsDecValue (cs : List Char) : Option ℚ :=
  let sgn := parseSign cs
  let d1 := takeDigits sgn.2
  match d1.2 with
  | '.' :: cs2 =>
    let d2 := takeDigits cs2
    if d1.1.isEmpty ∧ d2.1.isEmpty then none
    else (parseExpPart d2.2).map (decValue sgn.1 d1.1 d2.1)
  | cs1 =>
    if d1.1.isEmpty then none
    else (parseExpPart cs1).map (decValue sgn.1 d1.1 [])

/-- JavaScript `Number(string)`: trims, maps the empty string to `0`, and
otherwise reads a decimal literal (`NaN`, i.e. `none`, on failure). -/
def jsStrToNum (s : String) : Option ℚ :=
  let t := jsTrim s
  if t = "" then some 0 else jsDecValue t.data

/-- JavaScript `Number(x)` applied to a parsed cell: numbers pass through,
texts go through the string conversion. -/
def jsNumOfCell : CellVal → Option ℚ
  | CellVal.num q => some q
  | CellVal.str s => jsStrToNum s

/-- JavaScript object assignment `obj[k] = v` on an insertion-ordered
association list: overwrite in place when the key exists, else append. -/
def objSet (obj : List (String × String)) (k v : String) : List (String × String) :=
  if obj.any (fun p => p.1 == k) then
    obj.map (fun p => if p.1 == k then (p.1, v) else p)
  else obj ++ [(k, v)]

/-- The `for (let j = 0; j < header.length; j++)` object-building loop of
`part_008`'s parser: key `header[j]`, or `col{j}` when that header cell is
empty; value `items[j] ?? ""`. -/
def buildObj (header : List String) (items : List String) : List (String × String) :=
  (List.range header.length).foldl
    (fun obj j =>
      let h := header.getD j ""
      let key := if h ≠ "" then h else "col" ++ Nat.repr j
      objSet obj key (items.getD j ""))
    []

/-- The numeric-coercion step of `part_008`'s parser: each cell is trimmed;
an empty string stays an (empty) text, a regex-matching literal becomes a
number, anything else stays text. -/
def coerceCell (v : String) : CellVal :=
  let t := jsTrim v
  if t = "" then CellVal.str t
  else
    match regexNumValue t with
    | some q => CellVal.num q
    | none => CellVal.str t

/-- Header synonyms mapped to `time`. -/
def timeSynonyms : List String :=
  ["time", "t", "hours", "minute", "min"]

/-- Header synonyms mapped to `temperature`. -/
def temperatureSynonyms : List String :=
  ["temperature", "temp", "°c", "c"]

/-- Header synonyms mapped to `microbe`. -/
def microbeSynonyms : List String :=
  ["microbe", "count", "cfu", "concentration", "value", "target"]

/-- Function `normalizeKey` of `part_008`: trim and lower-case. -/
def normalizeKey (k : String) : String :=
  jsToLower (jsTrim k)

/-- The synonym-mapping loop of `part_008`'s parser: walks the row's keys
in order and (re)assigns `time` / `temperature` / `microbe` from
`Number(map[k])` whenever the normalised key is a recognised synonym; the
full cell map rides along unchanged.  (Not modelled: the corner where a row
has two columns mapping to the same field one of which is literally named
after it, in which case JavaScript's later read of `map[k]` can see the
earlier numeric overwrite; no two such columns occur in this development.) -/
def applySynonyms (cells : List (String × CellVal)) : ExpectedRow :=
  cells.foldl
    (fun row kv =>
      let nk := normalizeKey kv.1
      let row1 := if timeSynonyms.contains nk then
        { row with time := jsNumOfCell kv.2 } else row
      let row2 := if temperatureSynonyms.contains nk then
        { row1 with temperature := jsNumOfCell kv.2 } else row1
      if microbeSynonyms.contains nk then
        { row2 with microbe := jsNumOfCell kv.2 } else row2)
    { extra := cells }

/-- Parser `parseCSVFile` of `part_008` (the heuristic parser), applied to the
file's text: drops blank lines, reads the first remaining line as the
header (plain comma split), and turns each further line into a row via
`splitCSVLine`, object building, numeric coercion and synonym mapping.
It never fails: zero non-blank lines give `[]`, a lone header line gives
`[]`, and unrecognised headers simply leave the normalised fields unset.
(`splitCSVLine` always returns at least one field, so the
`items.length === 0` skip is vacuous; it is kept for fidelity.) -/
def parseCSVFile8 (text : String) : List ExpectedRow :=
  let lines := (jsSplitNewlines text).filter (fun l => jsTrim l ≠ "")
  match lines with
  | [] => []
  | headerLine :: rest =>
    let header := (jsSplitComma headerLine).map jsTrim
    rest.filterMap (fun line =>
      let items := splitCSVLine line
      if items.isEmpty then none
      else
        let obj := buildObj header items
        let cells := obj.map (fun kv => (kv.1, coerceCell kv.2))
        some (applySynonyms cells))

/-- Column read `Number(cols[idx])` of the strict parser: a missing index
is `undefined`, hence `NaN`. -/
def jsCol (cols : List String) (idx : ℕ) : Option ℚ :=
  match cols[idx]? with
  | none => none
  | some s => jsStrToNum s

/-- Parser `parseCSVFile` of `microbialUtils.ts` (the strict parser): trims the
whole text, splits on line breaks **without** dropping interior blank
lines, silently returns `[]` when fewer than 2 lines remain, requires the
exact lower-cased header names `time`, `temperature`, `microbe` (first
occurrence wins), and otherwise builds rows of just those three fields. -/
def parseCSVFileStrict (text : String) : Except String (List ExpectedRow) :=
  let lines := jsSplitNewlines (jsTrim text)
  if lines.length < 2 then Except.ok []
  else
    let header := (jsSplitComma (lines.headD "")).map (fun h => jsToLower (jsTrim h))
    match header.findIdx? (· == "time"), header.findIdx? (· == "temperature"),
        header.findIdx? (· == "microbe") with
    | some timeIdx, some tempIdx, some microIdx =>
      Except.ok (lines.tail.map (fun line =>
        let cols := (jsSplitComma line).map jsTrim
        { time := jsCol cols timeIdx
          temperature := jsCol cols tempIdx
          microbe := jsCol cols microIdx }))
    | _, _, _ => Except.error "CSV must include columns: time, temperature, microbe"


/-- One valid row alone in its temperature group: the group exists but its
`valid` subset has a single element. -/
def rowSolo : ExpectedRow :=
  { time := some 1, temperature := some 25, microbe := some 5 }

/-- Input whose only temperature group has fewer than 2 valid rows. -/
def dataSoloGroup : List ExpectedRow :=
  [rowSolo]

/-- Row at time 0 of the Weibull counterexample group. -/
def rowW0 : ExpectedRow :=
  { time := some 0, temperature := some 25, microbe := some 10 }

/-- Row at time 1 of the Weibull counterexample group. -/
def rowW1 : ExpectedRow :=
  { time := some 1, temperature := some 25, microbe := some 2 }

/-- One temperature group (25 °C) with two valid rows, microbe decaying
from 10 at time 0 to 2 at time 1. -/
def dataWeibull : List ExpectedRow :=
  [rowW0, rowW1]

/-- Valid row at time 5, listed before the row at time 1. -/
def rowT5 : ExpectedRow :=
  { time := some 5, temperature := some 25, microbe := some 10 }

/-- Valid row at time 1, listed after the row at time 5. -/
def rowT1 : ExpectedRow :=
  { time := some 1, temperature := some 25, microbe := some 2 }

/-- One temperature group whose rows arrive in descending time order. -/
def dataUnsortedTimes : List ExpectedRow :=
  [rowT5, rowT1]

/-- Two temperature groups: 20 °C with two valid rows (fit), 30 °C with one
valid row (skipped). -/
def dataTwoGroups : List ExpectedRow :=
  [{ time := some 0, temperature := some 20, microbe := some 1 },
   { time := some 1, temperature := some 20, microbe := some 3 },
   { time := some 0, temperature := some 30, microbe := some 7 }]

/-- A constant `Math.random()` oracle, for concrete instantiations. -/
noncomputable def zeroRand : ℕ → ℝ :=
  fun _ => 0

/-- Header exercising the synonym table and the coercion rules: recognised
synonyms `T`, `Temp`, `CFU` plus the pass-through column `note`; the second
data row exercises the empty-string, plain-text and exponent cases. -/
def csvSynonyms : String :=
  "T, Temp, CFU, note\n1, 23.5, 1e2, hello\n, abc, 2.5e-1, "

/-- C7: splitting a CSV data line treats a comma inside a quoted segment as
part of the field, not as a delimiter: the line `"1,000",25,100` parses
into exactly the 3 fields `1,000`, `25`, `100` (an unquoted `1,000,25,100`
would give 4). -/
theorem c7_quoted_comma_three_fields :
    splitCSVLine "\"1,000\",25,100" = ["1,000", "25", "100"] ∧
    (splitCSVLine "\"1,000\",25,100").length = 3 ∧
    (splitCSVLine "1,000,25,100").length = 4 := by
  refine ⟨rfl, rfl, rfl⟩

/-- C5 counterexample: on a raw text with only one non-blank line, neither
parser fails — the strict parser returns `ok []` and the heuristic parser
returns `[]`, both silently, where the claim demands a `FormatError`. -/
theorem c5_counterexample_short_input_is_silent :
    parseCSVFileStrict "time,temperature,microbe" = Except.ok [] ∧
    parseCSVFile8 "time,temperature,microbe" = [] := by
  refine ⟨rfl, rfl⟩

/-- C5 (amended): with fewer than 2 lines after trimming, the strict parser
returns the empty row sequence without failing; a `FormatError` arises only
in the strict parser when at least 2 lines are present and the header lacks
one of the exact columns `time`, `temperature`, `microbe`; the heuristic
parser never fails, retaining unrecognised headers as pass-through cells
with the normalised fields unset. -/
theorem c5_amended_short_input_returns_empty :
    (∀ text : String, (jsSplitNewlines (jsTrim text)).length < 2 →
      parseCSVFileStrict text = Except.ok []) ∧
    parseCSVFileStrict "a,b\n1,2" =
      Except.error "CSV must include columns: time, temperature, microbe" ∧
    parseCSVFile8 "a,b\n1,2" =
      [{ extra := [("a", CellVal.num 1), ("b", CellVal.num 2)] }] := by
  refine ⟨fun text h => ?_, rfl, ?_⟩
  · simp [parseCSVFileStrict, h]
  · with_unfolding_all rfl

/-- Witness for `c5_amended_short_input_returns_empty` at the concrete
one-line text `"x"`. -/
theorem c5_amended_witness :
    (jsSplitNewlines (jsTrim "x")).length < 2 ∧
    parseCSVFileStrict "x" = Except.ok [] := by
  exact ⟨by decide, c5_amended_short_input_returns_empty.1 "x" (by decide)⟩

/-- C8: the heuristic parser maps recognised header synonyms
(case-insensitively, after trimming) onto the normalised fields and coerces
regex-matching numeric literals to numbers while keeping other fields as
trimmed text and the empty string as the empty string: on the header
`T, Temp, CFU, note`, the columns land in `time`, `temperature`, `microbe`
with `"23.5"` become the number `23.5`, `"1e2"` the number `100`, `"hello"`
retained as text, `""` retained as the empty text; and every synonym in the
three tables routes a value `7` into its normalised field. -/
theorem c8_header_synonyms_and_numeric_coercion :
    parseCSVFile8 csvSynonyms =
      [{ time := some 1, temperature := some (47/2), microbe := some 100,
         extra := [("T", CellVal.num 1), ("Temp", CellVal.num (47/2)),
                   ("CFU", CellVal.num 100), ("note", CellVal.str "hello")] },
       { time := some 0, temperature := none, microbe := some (1/4),
         extra := [("T", CellVal.str ""), ("Temp", CellVal.str "abc"),
                   ("CFU", CellVal.num (1/4)), ("note", CellVal.str "")] }] ∧
    (∀ h ∈ timeSynonyms,
      (parseCSVFile8 (h ++ "\n7")).map (fun r => r.time) = [some 7]) ∧
    (∀ h ∈ temperatureSynonyms,
      (parseCSVFile8 (h ++ "\n7")).map (fun r => r.temperature) = [some 7]) ∧
    (∀ h ∈ microbeSynonyms,
      (parseCSVFile8 (h ++ "\n7")).map (fun r => r.microbe) = [some 7]) := by
  refine ⟨by with_unfolding_all rfl, ?_, ?_, ?_⟩ <;>
    · intro h hh
      fin_cases hh <;> with_unfolding_all rfl

/-- Witness for `c8_header_synonyms_and_numeric_coercion` at the synonym
`cfu`. -/
theorem c8_witness :
    "cfu" ∈ microbeSynonyms ∧
    (parseCSVFile8 ("cfu" ++ "\n7")).map (fun r => r.microbe) = [some 7] := by
  exact ⟨by decide,
    c8_header_synonyms_and_numeric_coercion.2.2.2 "cfu" (by decide)⟩

/-- The group keys are exactly `sortedTemps`. -/
theorem map_fst_groupDataByTemperature (data : List ExpectedRow) :
    (groupDataByTemperature data).map Prod.fst = sortedTemps data := by
  simp [groupDataByTemperature, List.map_map, Function.comp_def]

/-- A temperature occurs among the group keys iff some input row carries it. -/
theorem mem_sortedTemps {data : List ExpectedRow} {t : ℚ} :
    t ∈ sortedTemps data ↔ ∃ r ∈ data, r.temperature = some t := by
  simp [sortedTemps, List.mem_dedup, List.mem_filterMap]

/-- The group keys are pairwise distinct. -/
theorem nodup_sortedTemps (data : List ExpectedRow) : (sortedTemps data).Nodup :=
  (List.perm_insertionSort _ _).nodup_iff.mpr (List.nodup_dedup _)

/-- The group keys are strictly increasing. -/
theorem sorted_lt_sortedTemps (data : List ExpectedRow) :
    (sortedTemps data).Sorted (· < ·) :=
  (List.sorted_insertionSort _ _).lt_of_le (nodup_sortedTemps data)

/-- Every row of a group carries exactly that group's temperature. -/
theorem temp_of_mem_group {data : List ExpectedRow} {g : ℚ × List ExpectedRow}
    (hg : g ∈ groupDataByTemperature data) {r : ExpectedRow} (hr : r ∈ g.2) :
    r.temperature = some g.1 := by
  simp only [groupDataByTemperature, List.mem_map] at hg
  obtain ⟨t, _, rfl⟩ := hg
  rw [List.mem_filter] at hr
  exact of_decide_eq_true (by simpa [beq_iff_eq] using hr.2)

/-- Sum over distinct keys of a key-indexed indicator count. -/
theorem sum_if_count_nodup (c : ℕ) (t0 : ℚ) :
    ∀ ts : List ℚ, ts.Nodup →
      ((ts.map (fun t => if t = t0 then c else 0)).sum
        = if t0 ∈ ts then c else 0) := by
  intro ts hnd
  induction ts with
  | nil => simp
  | cons a as ih =>
    rw [List.map_cons, List.sum_cons, ih hnd.of_cons]
    by_cases ha : a = t0
    · subst ha
      have hnot : a ∉ as := (List.nodup_cons.mp hnd).1
      simp [hnot]
    · have hne : ¬ (t0 = a) := fun h => ha h.symm
      simp [ha, List.mem_cons, hne]

/-- The concatenation of the groups' row lists is a permutation of the
input restricted to rows with finite temperature. -/
theorem groups_flatten_perm (data : List ExpectedRow) :
    (((groupDataByTemperature data).map Prod.snd).flatten).Perm
      (data.filter (fun r => r.temperature.isSome)) := by
  classical
  letI : DecidableEq ExpectedRow := Classical.decEq _
  rw [List.perm_iff_count]
  intro r
  rw [List.count_flatten]
  simp only [groupDataByTemperature, List.map_map, Function.comp_def]
  rcases htemp : r.temperature with _ | t0
  · have h1 : ∀ t ∈ sortedTemps data,
        List.count r (data.filter fun x => x.temperature == some t) = 0 := by
      intro t _
      refine List.count_eq_zero.mpr ?_
      intro hmem
      rw [List.mem_filter] at hmem
      have h2 : r.temperature = some t := by simpa [beq_iff_eq] using hmem.2
      rw [htemp] at h2
      exact Option.noConfusion h2
    have h3 : List.count r (data.filter fun x => x.temperature.isSome) = 0 := by
      refine List.count_eq_zero.mpr ?_
      intro hmem
      rw [List.mem_filter, htemp] at hmem
      simpa using hmem.2
    rw [h3]
    refine List.sum_eq_zero ?_
    intro x hx
    rw [List.mem_map] at hx
    obtain ⟨t, ht, rfl⟩ := hx
    exact h1 t ht
  · have hcnt : ∀ t ∈ sortedTemps data,
        List.count r (data.filter fun x => x.temperature == some t)
          = if t = t0 then List.count r data else 0 := by
      intro t _
      by_cases hteq : t = t0
      · subst hteq
        rw [if_pos rfl]
        exact List.count_filter (by simp [htemp])
      · rw [if_neg hteq]
        refine List.count_eq_zero.mpr ?_
        intro hmem
        rw [List.mem_filter] at hmem
        have h2 : r.temperature = some t := by simpa [beq_iff_eq] using hmem.2
        rw [htemp] at h2
        exact hteq (Option.some_injective _ h2.symm).symm.symm
    rw [List.map_congr_left hcnt,
      sum_if_count_nodup (List.count r data) t0 _ (nodup_sortedTemps data)]
    have hrhs : List.count r (data.filter fun x => x.temperature.isSome)
        = List.count r data :=
      List.count_filter (by simp [htemp])
    rw [hrhs]
    by_cases hmem : t0 ∈ sortedTemps data
    · rw [if_pos hmem]
    · rw [if_neg hmem]
      refine (List.count_eq_zero.mpr ?_).symm
      intro hrdata
      exact hmem (mem_sortedTemps.mpr ⟨r, hrdata, htemp⟩)

/-- C6: `groupDataByTemperature` partitions exactly the rows with finite
temperature: their multiset is preserved (union of the groups equals that
subset of the input, multiplicity included), every row sits in the group of
its own temperature and in no other (exact numeric keying, no
binning), rows without finite temperature are in no group, and the groups
are listed in strictly ascending temperature order. -/
theorem c6_grouping_partition (data : List ExpectedRow) :
    (((groupDataByTemperature data).map Prod.snd).flatten).Perm
        (data.filter (fun r => r.temperature.isSome)) ∧
    (∀ g ∈ groupDataByTemperature data, ∀ r ∈ g.2, r.temperature = some g.1) ∧
    (∀ g1 ∈ groupDataByTemperature data, ∀ g2 ∈ groupDataByTemperature data,
      ∀ r : ExpectedRow, r ∈ g1.2 → r ∈ g2.2 → g1 = g2) ∧
    ((groupDataByTemperature data).map Prod.fst).Sorted (· < ·) := by
  refine ⟨groups_flatten_perm data,
    fun g hg r hr => temp_of_mem_group hg hr, ?_, ?_⟩
  · intro g1 hg1 g2 hg2 r hr1 hr2
    have h1 := temp_of_mem_group hg1 hr1
    have h2 := temp_of_mem_group hg2 hr2
    have hts : g1.1 = g2.1 := Option.some_injective _ (h1.symm.trans h2)
    simp only [groupDataByTemperature, List.mem_map] at hg1 hg2
    obtain ⟨t1, _, rfl⟩ := hg1
    obtain ⟨t2, _, rfl⟩ := hg2
    simp only at hts
    rw [hts]
  · rw [map_fst_groupDataByTemperature]
    exact sorted_lt_sortedTemps data

/-- Witness for `c6_grouping_partition` at a one-row input: the single
group holds the row and carries its temperature. -/
theorem c6_witness :
    ∃ g ∈ groupDataByTemperature dataSoloGroup,
      rowSolo ∈ g.2 ∧ rowSolo.temperature = some g.1 := by
  have hg : ((25 : ℚ), [rowSolo]) ∈ groupDataByTemperature dataSoloGroup := by
    with_unfolding_all exact List.Mem.head _
  exact ⟨_, hg, List.Mem.head _,
    (c6_grouping_partition dataSoloGroup).2.1 _ hg rowSolo (List.Mem.head _)⟩

/-- A group is skipped by `part_008`'s loop exactly when its valid subset
has fewer than 2 rows. -/
theorem fitGroup8_eq_none_iff {model : Model8} {rows : List ExpectedRow} :
    fitGroup8 model rows = none ↔ (validRows rows).length < 2 := by
  by_cases h : (validRows rows).length < 2 <;> simp [fitGroup8, h]

/-- The fitted list of a fit group projects, on the fields other than
`microbe_fitted`, to the group's own rows: `part_008` fits by mapping a
record update over `group.data`. -/
theorem fitGroup8_fitted_mem {model : Model8} {rows F : List ExpectedRow}
    {r2 : ℝ} {ps : List (String × ℝ)}
    (h : fitGroup8 model rows = some (F, r2, ps)) :
    (F.map (fun r => (r.temperature, r.time)) =
      rows.map (fun r => (r.temperature, r.time))) ∧
    ∀ x ∈ F, ∃ row ∈ rows, ∃ v : ℝ, x = { row with microbe_fitted := some v } := by
  by_cases hlen : (validRows rows).length < 2
  · rw [fitGroup8_eq_none_iff.mpr hlen] at h
    exact Option.noConfusion h
  · simp only [fitGroup8, if_neg hlen] at h
    cases model <;>
    · simp only [Option.some.injEq, Prod.mk.injEq] at h
      obtain ⟨hF, -, -⟩ := h
      subst hF
      refine ⟨?_, ?_⟩
      · rw [List.map_map]
        exact List.map_congr_left (fun row _ => rfl)
      · intro x hx
        rw [List.mem_map] at hx
        obtain ⟨row, hrow, rfl⟩ := hx
        exact ⟨row, hrow, _, rfl⟩

/-- Exact fitted list of the Weibull branch: each row of the group gets
`microbe_fitted = N_max + (N_min − N_max) · (1 − exp(−(t/δ)^1.2))` with
`N_max`/`N_min` the valid subset's extreme microbe values,
`δ = 0.8 · max(time)` and `t = Number(row.time) || 0`. -/
theorem fitGroup8_weibull_fitted {rows : List ExpectedRow}
    (hlen : ¬ (validRows rows).length < 2) :
    (fitGroup8 Model8.weibull rows).map (fun t => t.1) =
      some (rows.map (fun row =>
        { row with microbe_fitted := some (
            (listMaxQ ((validRows rows).map microbeOr0) : ℝ) +
            ((listMinQ ((validRows rows).map microbeOr0) : ℝ) -
              (listMaxQ ((validRows rows).map microbeOr0) : ℝ)) *
            (1 - Real.exp (-((timeR row /
              ((listMaxQ ((validRows rows).map timeOr0) : ℝ) * 0.8)) ^ (1.2 : ℝ)))) ) })) := by
  simp [fitGroup8, hlen]

/-- The concatenated fitted rows of `part_008`'s loop are the flattened
per-group fitted lists of the unskipped groups, in group order. -/
theorem fit8Loop_fitted (model : Model8) (gs : List (ℚ × List ExpectedRow)) :
    (fit8Loop model gs).1 =
      (gs.filterMap (fun g => (fitGroup8 model g.2).map (fun t => t.1))).flatten := by
  induction gs with
  | nil => rfl
  | cons g gs ih =>
    rcases h : fitGroup8 model g.2 with - | ⟨F, r2, ps⟩
    · simp [fit8Loop, h, ih]
    · simp [fit8Loop, h, ih]

/-- Membership transport into the loop's concatenated fitted rows. -/
theorem mem_fit8Loop_fitted {model : Model8} {gs : List (ℚ × List ExpectedRow)}
    {g : ℚ × List ExpectedRow} (hg : g ∈ gs) {F : List ExpectedRow} {r2 : ℝ}
    {ps : List (String × ℝ)} (hG : fitGroup8 model g.2 = some (F, r2, ps))
    {x : ExpectedRow} (hx : x ∈ F) : x ∈ (fit8Loop model gs).1 := by
  rw [fit8Loop_fitted, List.mem_flatten]
  exact ⟨F, List.mem_filterMap.mpr ⟨g, hg, by rw [hG]; rfl⟩, hx⟩

/-- Rows of a group are rows of the input. -/
theorem mem_data_of_mem_group {data : List ExpectedRow}
    {g : ℚ × List ExpectedRow} (hg : g ∈ groupDataByTemperature data)
    {r : ExpectedRow} (hr : r ∈ g.2) : r ∈ data := by
  simp only [groupDataByTemperature, List.mem_map] at hg
  obtain ⟨t, -, rfl⟩ := hg
  exact (List.mem_filter.mp hr).1

/-- Successful runs of `part_008`'s fit expose the loop output. -/
theorem fit8_ok_iff {data : List ExpectedRow} {model : Model8} {out : Fit8Result}
    (hne : groupDataByTemperature data ≠ []) :
    fitMicrobialModel8 data model = Except.ok out ↔
      out = { modelName :=
                (match model with
                 | .linear => "Linear Regression"
                 | .weibull => "Weibull Model") ++ " (Per Temperature)"
              rSquared := (fit8Loop model (groupDataByTemperature data)).2.1 /
                ((groupDataByTemperature data).length : ℝ)
              temperatureParameters := (fit8Loop model (groupDataByTemperature data)).2.2
              fittedData := (fit8Loop model (groupDataByTemperature data)).1 } := by
  have hE : (groupDataByTemperature data).isEmpty = false := by
    simpa [List.isEmpty_iff] using hne
  constructor
  · intro h
    simp only [fitMicrobialModel8, hE, Bool.false_eq_true, if_false,
      Except.ok.injEq] at h
    exact h.symm
  · intro h
    simp only [fitMicrobialModel8, hE, Bool.false_eq_true, if_false,
      Except.ok.injEq]
    exact h.symm

/-- C2 (amended): for every temperature group with at least 2 valid rows,
the Weibull fitted value of each of the group's rows is
`N_max + (N_min − N_max) · (1 − S(t))` — the curve starts at the observed
maximum and decays toward the observed minimum, the transpose of the
claimed `N_min + (N_max − N_min) · (1 − S(t))` — with
`S(t) = exp(−(t/δ)^1.2)`, `δ = 0.8 · max(time)` over the group's valid
rows, and `N_max`/`N_min` the group's observed extreme microbe values. -/
theorem c2_amended_weibull_formula (data : List ExpectedRow)
    (g : ℚ × List ExpectedRow) (hg : g ∈ groupDataByTemperature data)
    (h2 : 2 ≤ (validRows g.2).length) (r : ExpectedRow) (hr : r ∈ g.2) :
    ∃ out, fitMicrobialModel8 data Model8.weibull = Except.ok out ∧
      { r with microbe_fitted := some (
          (listMaxQ ((validRows g.2).map microbeOr0) : ℝ) +
          ((listMinQ ((validRows g.2).map microbeOr0) : ℝ) -
            (listMaxQ ((validRows g.2).map microbeOr0) : ℝ)) *
          (1 - Real.exp (-((timeR r /
            ((listMaxQ ((validRows g.2).map timeOr0) : ℝ) * 0.8)) ^ (1.2 : ℝ)))) ) }
        ∈ out.fittedData := by
  have hlen : ¬ (validRows g.2).length < 2 := Nat.not_lt.mpr h2
  have hne : groupDataByTemperature data ≠ [] := List.ne_nil_of_mem hg
  refine ⟨_, (fit8_ok_iff hne).mpr rfl, ?_⟩
  have hW := fitGroup8_weibull_fitted hlen
  rcases hF : fitGroup8 Model8.weibull g.2 with - | ⟨F, r2, ps⟩
  · rw [hF] at hW
    exact Option.noConfusion hW
  · rw [hF, Option.map_some'] at hW
    rw [Option.some.injEq] at hW
    dsimp only at hW
    refine mem_fit8Loop_fitted hg hF ?_
    rw [hW]
    exact List.mem_map_of_mem _ hr

/-- C2 counterexample: on the group `{(t=0, N=10), (t=1, N=2)}` the code's
fitted value at the first row (time 0) is `10` (the group maximum), while
the claimed formula `N_min + (N_max − N_min) · (1 − S(0))` evaluates to
`2`; the two differ. -/
theorem c2_counterexample :
    ∃ out, fitMicrobialModel8 dataWeibull Model8.weibull = Except.ok out ∧
      (out.fittedData.map (fun r => r.microbe_fitted)).head? =
        some (some (10 : ℝ)) ∧
      (2 : ℝ) + ((10 : ℝ) - 2) *
        (1 - Real.exp (-(((0 : ℝ) / ((1 : ℝ) * 0.8)) ^ (1.2 : ℝ)))) = 2 ∧
      (10 : ℝ) ≠ 2 := by
  have hne : groupDataByTemperature dataWeibull ≠ [] := by
    with_unfolding_all exact List.cons_ne_nil _ _
  refine ⟨_, (fit8_ok_iff hne).mpr rfl, ?_, ?_, by norm_num⟩
  · have hstep : (((fit8Loop Model8.weibull
        (groupDataByTemperature dataWeibull)).1).map
          (fun r => r.microbe_fitted)).head? =
        some (some (((10 : ℚ) : ℝ) + (((2 : ℚ) : ℝ) - ((10 : ℚ) : ℝ)) *
          (1 - Real.exp (-((((0 : ℚ) : ℝ) / (((1 : ℚ) : ℝ) * 0.8)) ^ (1.2 : ℝ)))))) := by
      with_unfolding_all rfl
    show (((fit8Loop Model8.weibull
        (groupDataByTemperature dataWeibull)).1).map
          (fun r => r.microbe_fitted)).head? = some (some (10 : ℝ))
    rw [hstep]
    have hz : ((0 : ℚ) : ℝ) / (((1 : ℚ) : ℝ) * 0.8) = 0 := by norm_num
    rw [hz, Real.zero_rpow (by norm_num : (1.2 : ℝ) ≠ 0)]
    norm_num
  · rw [show (0 : ℝ) / ((1 : ℝ) * 0.8) = 0 by norm_num,
      Real.zero_rpow (by norm_num : (1.2 : ℝ) ≠ 0)]
    norm_num

/-- Witness for `c2_amended_weibull_formula` at the concrete two-row
group of `dataWeibull`. -/
theorem c2_amended_witness :
    ((25 : ℚ), [rowW0, rowW1]) ∈ groupDataByTemperature dataWeibull ∧
    2 ≤ (validRows [rowW0, rowW1]).length ∧
    ∃ out, fitMicrobialModel8 dataWeibull Model8.weibull = Except.ok out ∧
      { rowW0 with microbe_fitted := some (
          (listMaxQ ((validRows [rowW0, rowW1]).map microbeOr0) : ℝ) +
          ((listMinQ ((validRows [rowW0, rowW1]).map microbeOr0) : ℝ) -
            (listMaxQ ((validRows [rowW0, rowW1]).map microbeOr0) : ℝ)) *
          (1 - Real.exp (-((timeR rowW0 /
            ((listMaxQ ((validRows [rowW0, rowW1]).map timeOr0) : ℝ) * 0.8)) ^ (1.2 : ℝ)))) ) }
        ∈ out.fittedData := by
  have hg : ((25 : ℚ), [rowW0, rowW1]) ∈ groupDataByTemperature dataWeibull := by
    with_unfolding_all exact List.Mem.head _
  exact ⟨hg, by decide,
    c2_amended_weibull_formula dataWeibull _ hg (by decide) rowW0 (List.Mem.head _)⟩

/-- C1 (amended): both fitters fail with the insufficient-data error
exactly when there are zero temperature groups — equivalently, when no
input row has a finite temperature.  Groups that merely lack 2 valid rows
do not trigger the error: they are skipped and the fit succeeds. -/
theorem c1_amended_fit_error_condition (data : List ExpectedRow) :
    (∀ model : Model8,
      ((∃ e, fitMicrobialModel8 data model = Except.error e) ↔
        groupDataByTemperature data = [])) ∧
    (∀ (rand : ℕ → ℝ) (model : ModelM),
      ((∃ e, fitMicrobialModel rand data model = Except.error e) ↔
        groupDataByTemperature data = [])) ∧
    (groupDataByTemperature data = [] ↔ ∀ r ∈ data, r.temperature = none) := by
  refine ⟨?_, ?_, ?_⟩
  · intro model
    by_cases h : groupDataByTemperature data = []
    · simp [fitMicrobialModel8, h]
    · have hE : (groupDataByTemperature data).isEmpty = false := by
        simpa [List.isEmpty_iff] using h
      simp [fitMicrobialModel8, hE, h]
  · intro rand model
    by_cases h : groupDataByTemperature data = []
    · simp [fitMicrobialModel, h]
    · have hE : (groupDataByTemperature data).isEmpty = false := by
        simpa [List.isEmpty_iff] using h
      simp [fitMicrobialModel, hE, h]
  · constructor
    · intro h r hr
      rcases htemp : r.temperature with - | t
      · rfl
      · exfalso
        have hmem : t ∈ sortedTemps data := mem_sortedTemps.mpr ⟨r, hr, htemp⟩
        have hs : sortedTemps data = [] := List.map_eq_nil_iff.mp h
        rw [hs] at hmem
        exact List.not_mem_nil _ hmem
    · intro h
      have hs : sortedTemps data = [] := by
        rw [List.eq_nil_iff_forall_not_mem]
        intro t ht
        obtain ⟨r, hr, htemp⟩ := mem_sortedTemps.mp ht
        rw [h r hr] at htemp
        exact Option.noConfusion htemp
      simp [groupDataByTemperature, hs]

/-- C1 counterexample: an input whose single temperature group has exactly
one valid row — so zero groups have at least 2 valid rows — on which both
fitters nevertheless return a `FitResult` instead of failing. -/
theorem c1_counterexample_skipped_groups_still_ok :
    (fitMicrobialModel8 dataSoloGroup Model8.weibull).isOk = true ∧
    (fitMicrobialModel zeroRand dataSoloGroup ModelM.linear).isOk = true ∧
    fittedGroups dataSoloGroup = [] ∧
    groupDataByTemperature dataSoloGroup ≠ [] := by
  refine ⟨?_, ?_, ?_, ?_⟩
  · with_unfolding_all rfl
  · with_unfolding_all rfl
  · with_unfolding_all rfl
  · with_unfolding_all exact List.cons_ne_nil _ _

/-- Witness for `c1_amended_fit_error_condition`: at `dataSoloGroup` the
error equivalence instantiates to a non-error, since a group exists. -/
theorem c1_amended_witness :
    ¬ (∃ e, fitMicrobialModel8 dataSoloGroup Model8.weibull = Except.error e) := by
  intro hex
  have h := ((c1_amended_fit_error_condition dataSoloGroup).1 Model8.weibull).mp hex
  have : rowSolo.temperature = none :=
    ((c1_amended_fit_error_condition dataSoloGroup).2.2).mp h rowSolo (List.Mem.head _)
  exact Option.noConfusion this

/-- Projection of the loop's concatenated fitted rows onto
`(temperature, time)`: group for group (skipped ones absent), row for row
in the group's own order. -/
theorem fit8Loop_proj (model : Model8) (gs : List (ℚ × List ExpectedRow)) :
    (fit8Loop model gs).1.map (fun r => (r.temperature, r.time)) =
      ((gs.filter (fun g => 2 ≤ (validRows g.2).length)).map
        (fun g => g.2.map (fun r => (r.temperature, r.time)))).flatten := by
  induction gs with
  | nil => rfl
  | cons g gs ih =>
    by_cases hlen : (validRows g.2).length < 2
    · have hnone : fitGroup8 model g.2 = none := fitGroup8_eq_none_iff.mpr hlen
      have hfilt : ¬ 2 ≤ (validRows g.2).length := Nat.not_le.mpr hlen
      simp [fit8Loop, hnone, List.filter_cons, hfilt, ih]
    · rcases hsome : fitGroup8 model g.2 with - | ⟨F, r2, ps⟩
      · rw [fitGroup8_eq_none_iff] at hsome
        exact absurd hsome hlen
      · have hproj := (fitGroup8_fitted_mem hsome).1
        have hfilt : 2 ≤ (validRows g.2).length := Nat.not_lt.mp hlen
        simp [fit8Loop, hsome, List.filter_cons, hfilt, hproj, ih]

/-- C4 (amended): the fitted rows returned by `part_008`'s fit are the
concatenation of the fitted groups in strictly ascending temperature
order; within each group the rows keep the group's insertion order — the
input order of the rows at that temperature — with **no** re-sort by time
(the time sort lives in the chart component, not the Fitter). -/
theorem c4_amended_fitted_order (data : List ExpectedRow) (model : Model8)
    (out : Fit8Result) (h : fitMicrobialModel8 data model = Except.ok out) :
    out.fittedData.map (fun r => (r.temperature, r.time)) =
      ((fittedGroups data).map
        (fun g => g.2.map (fun r => (r.temperature, r.time)))).flatten ∧
    ((fittedGroups data).map Prod.fst).Sorted (· < ·) ∧
    ∀ g ∈ fittedGroups data,
      g.2 = data.filter (fun r => r.temperature == some g.1) := by
  have hne : groupDataByTemperature data ≠ [] := by
    intro hnil
    simp [fitMicrobialModel8, hnil] at h
  rw [fit8_ok_iff hne] at h
  subst h
  refine ⟨?_, ?_, ?_⟩
  · simpa [fittedGroups] using fit8Loop_proj model (groupDataByTemperature data)
  · have hsub : ((fittedGroups data).map Prod.fst).Sublist
        ((groupDataByTemperature data).map Prod.fst) :=
      (List.filter_sublist _).map Prod.fst
    rw [map_fst_groupDataByTemperature] at hsub
    exact (sorted_lt_sortedTemps data).sublist hsub
  · intro g hg
    have hmem : g ∈ groupDataByTemperature data := List.mem_of_mem_filter hg
    simp only [groupDataByTemperature, List.mem_map] at hmem
    obtain ⟨t, -, rfl⟩ := hmem
    rfl

/-- C4 counterexample: a group whose rows arrive at times `5, 1` is fitted
in that same order — the fitted times are `[5, 1]`, not sorted ascending
by time as the claim asserts. -/
theorem c4_counterexample_no_time_sort :
    ∃ out, fitMicrobialModel8 dataUnsortedTimes Model8.linear = Except.ok out ∧
      out.fittedData.map (fun r => r.time) = [some (5 : ℚ), some 1] ∧
      ¬ ([(5 : ℚ), 1].Sorted (· ≤ ·)) := by
  have hne : groupDataByTemperature dataUnsortedTimes ≠ [] := by
    with_unfolding_all exact List.cons_ne_nil _ _
  refine ⟨_, (fit8_ok_iff hne).mpr rfl, ?_, ?_⟩
  · with_unfolding_all rfl
  · decide

/-- Witness for `c4_amended_fitted_order` at `dataTwoGroups` under the
linear model. -/
theorem c4_amended_witness :
    ∃ out, fitMicrobialModel8 dataTwoGroups Model8.linear = Except.ok out ∧
      out.fittedData.map (fun r => (r.temperature, r.time)) =
        ((fittedGroups dataTwoGroups).map
          (fun g => g.2.map (fun r => (r.temperature, r.time)))).flatten := by
  have hne : groupDataByTemperature dataTwoGroups ≠ [] := by
    with_unfolding_all exact List.cons_ne_nil _ _
  exact ⟨_, (fit8_ok_iff hne).mpr rfl,
    (c4_amended_fitted_order dataTwoGroups Model8.linear _
      ((fit8_ok_iff hne).mpr rfl)).1⟩

/-- A group is skipped by the `microbialUtils.ts` loop exactly when its
valid subset has fewer than 2 rows. -/
theorem fitGroupM_eq_none_iff {rand : ℕ → ℝ} {model : ModelM} {idx : ℕ}
    {rows : List ExpectedRow} :
    fitGroupM rand model idx rows = none ↔ (validRows rows).length < 2 := by
  by_cases h : (validRows rows).length < 2 <;> simp [fitGroupM, h]

/-- Every fitted row of a fit group is one of the group's rows with only
`microbe_fitted` set (both the linear and the simulated branch map a
record update over `group.data`). -/
theorem fitGroupM_fitted_mem {rand : ℕ → ℝ} {model : ModelM} {idx : ℕ}
    {rows F : List ExpectedRow} {m : Metrics} {c : ℕ}
    (h : fitGroupM rand model idx rows = some (F, m, c)) :
    ∀ x ∈ F, ∃ row ∈ rows, ∃ v : ℝ, x = { row with microbe_fitted := some v } := by
  by_cases hlen : (validRows rows).length < 2
  · rw [fitGroupM_eq_none_iff.mpr hlen] at h
    exact Option.noConfusion h
  · simp only [fitGroupM, if_neg hlen] at h
    cases model <;>
      simp only [Option.some.injEq, Prod.mk.injEq] at h <;>
      obtain ⟨hF, -, -⟩ := h <;>
      subst hF <;>
      intro x hx <;>
      rw [List.mem_map] at hx
    all_goals
      first
        | (obtain ⟨row, hrow, rfl⟩ := hx
           exact ⟨row, hrow, _, rfl⟩)
        | (obtain ⟨jr, hjr, rfl⟩ := hx
           refine ⟨jr.2, ?_, _, rfl⟩
           have hsnd := List.mem_map_of_mem Prod.snd hjr
           rwa [List.enum_map_snd] at hsnd)

/-- The running metric sums and `tempCount` of the `microbialUtils.ts`
loop equal the sums and length of the per-group metric list of the groups
actually fit. -/
theorem fitMLoop_sums (rand : ℕ → ℝ) (model : ModelM) :
    ∀ (gs : List (ℚ × List ExpectedRow)) (idx : ℕ),
      (fitMLoop rand model gs idx).rmseSum =
        ((groupMetricsList rand model gs idx).map Metrics.rmse).sum ∧
      (fitMLoop rand model gs idx).maeSum =
        ((groupMetricsList rand model gs idx).map Metrics.mae).sum ∧
      (fitMLoop rand model gs idx).r2Sum =
        ((groupMetricsList rand model gs idx).map Metrics.r2).sum ∧
      (fitMLoop rand model gs idx).tempCount =
        (groupMetricsList rand model gs idx).length := by
  intro gs
  induction gs with
  | nil => intro idx; exact ⟨rfl, rfl, rfl, rfl⟩
  | cons g gs ih =>
    intro idx
    rcases hG : fitGroupM rand model idx g.2 with - | ⟨F, m, c⟩
    · simpa [fitMLoop, groupMetricsList, hG] using ih idx
    · obtain ⟨h1, h2, h3, h4⟩ := ih (idx + c)
      simp [fitMLoop, groupMetricsList, hG, h1, h2, h3, h4]

/-- The number of per-group metric entries equals the number of groups
with at least 2 valid rows. -/
theorem groupMetricsList_length (rand : ℕ → ℝ) (model : ModelM) :
    ∀ (gs : List (ℚ × List ExpectedRow)) (idx : ℕ),
      (groupMetricsList rand model gs idx).length =
        (gs.filter (fun g => 2 ≤ (validRows g.2).length)).length := by
  intro gs
  induction gs with
  | nil => intro idx; rfl
  | cons g gs ih =>
    intro idx
    by_cases hlen : (validRows g.2).length < 2
    · have hG : fitGroupM rand model idx g.2 = none :=
        fitGroupM_eq_none_iff.mpr hlen
      have hfilt : ¬ 2 ≤ (validRows g.2).length := Nat.not_le.mpr hlen
      simp [groupMetricsList, hG, List.filter_cons, hfilt, ih idx]
    · rcases hG : fitGroupM rand model idx g.2 with - | ⟨F, m, c⟩
      · rw [fitGroupM_eq_none_iff] at hG
        exact absurd hG hlen
      · have hfilt : 2 ≤ (validRows g.2).length := Nat.not_lt.mp hlen
        simp [groupMetricsList, hG, List.filter_cons, hfilt, ih (idx + c)]

/-- Successful runs of the `microbialUtils.ts` fit expose the loop
output. -/
theorem fitM_ok_iff {rand : ℕ → ℝ} {data : List ExpectedRow} {model : ModelM}
    {out : FitMResult} (hne : groupDataByTemperature data ≠ []) :
    fitMicrobialModel rand data model = Except.ok out ↔
      out = { modelName := modelLabel model
              metrics :=
                ⟨(fitMLoop rand model (groupDataByTemperature data) 0).rmseSum /
                    ((fitMLoop rand model (groupDataByTemperature data) 0).tempCount : ℝ),
                  (fitMLoop rand model (groupDataByTemperature data) 0).maeSum /
                    ((fitMLoop rand model (groupDataByTemperature data) 0).tempCount : ℝ),
                  (fitMLoop rand model (groupDataByTemperature data) 0).r2Sum /
                    ((fitMLoop rand model (groupDataByTemperature data) 0).tempCount : ℝ)⟩
              fittedData := (fitMLoop rand model (groupDataByTemperature data) 0).fittedData } := by
  have hE : (groupDataByTemperature data).isEmpty = false := by
    simpa [List.isEmpty_iff] using hne
  constructor
  · intro h
    simp only [fitMicrobialModel, hE, Bool.false_eq_true, if_false,
      Except.ok.injEq] at h
    exact h.symm
  · intro h
    simp only [fitMicrobialModel, hE, Bool.false_eq_true, if_false,
      Except.ok.injEq]
    exact h.symm

/-- Every row of the loop's concatenated fitted output originates from a
row of one of the processed groups, changed only in `microbe_fitted`. -/
theorem fitMLoop_sources {rand : ℕ → ℝ} {model : ModelM} :
    ∀ {gs : List (ℚ × List ExpectedRow)} {idx : ℕ} {x : ExpectedRow},
      x ∈ (fitMLoop rand model gs idx).fittedData →
      ∃ g ∈ gs, ∃ row ∈ g.2, ∃ v : ℝ,
        x = { row with microbe_fitted := some v } := by
  intro gs
  induction gs with
  | nil =>
    intro idx x hx
    simp [fitMLoop] at hx
  | cons g gs ih =>
    intro idx x hx
    rcases hG : fitGroupM rand model idx g.2 with - | ⟨F, m, c⟩
    · rw [fitMLoop, hG] at hx
      obtain ⟨g1, hg1, rest⟩ := ih hx
      exact ⟨g1, List.mem_cons_of_mem _ hg1, rest⟩
    · rw [fitMLoop, hG] at hx
      rcases List.mem_append.mp hx with hxF | hxRest
      · obtain ⟨row, hrow, v, rfl⟩ := fitGroupM_fitted_mem hG x hxF
        exact ⟨g, List.Mem.head _, row, hrow, v, rfl⟩
      · obtain ⟨g1, hg1, rest⟩ := ih hxRest
        exact ⟨g1, List.mem_cons_of_mem _ hg1, rest⟩

/-- Same for `part_008`'s loop. -/
theorem fit8Loop_sources {model : Model8} :
    ∀ {gs : List (ℚ × List ExpectedRow)} {x : ExpectedRow},
      x ∈ (fit8Loop model gs).1 →
      ∃ g ∈ gs, ∃ row ∈ g.2, ∃ v : ℝ,
        x = { row with microbe_fitted := some v } := by
  intro gs
  induction gs with
  | nil =>
    intro x hx
    simp [fit8Loop] at hx
  | cons g gs ih =>
    intro x hx
    rcases hG : fitGroup8 model g.2 with - | ⟨F, r2, ps⟩
    · rw [fit8Loop, hG] at hx
      obtain ⟨g1, hg1, rest⟩ := ih hx
      exact ⟨g1, List.mem_cons_of_mem _ hg1, rest⟩
    · rw [fit8Loop, hG] at hx
      rcases List.mem_append.mp hx with hxF | hxRest
      · obtain ⟨row, hrow, v, rfl⟩ := (fitGroup8_fitted_mem hG).2 x hxF
        exact ⟨g, List.Mem.head _, row, hrow, v, rfl⟩
      · obtain ⟨g1, hg1, rest⟩ := ih hxRest
        exact ⟨g1, List.mem_cons_of_mem _ hg1, rest⟩

/-- C3: the aggregate metrics of a successful `microbialUtils.ts` fit are
the arithmetic means of the per-group metrics over exactly the groups that
were fit: groups skipped for having fewer than 2 valid rows appear in
neither the numerators nor the denominator. -/
theorem c3_aggregate_metrics_mean (rand : ℕ → ℝ) (data : List ExpectedRow)
    (model : ModelM) (out : FitMResult)
    (h : fitMicrobialModel rand data model = Except.ok out) :
    (groupMetricsList rand model (groupDataByTemperature data) 0).length =
      (fittedGroups data).length ∧
    out.metrics.rmse =
      ((groupMetricsList rand model (groupDataByTemperature data) 0).map
        Metrics.rmse).sum /
        ((groupMetricsList rand model (groupDataByTemperature data) 0).length : ℝ) ∧
    out.metrics.mae =
      ((groupMetricsList rand model (groupDataByTemperature data) 0).map
        Metrics.mae).sum /
        ((groupMetricsList rand model (groupDataByTemperature data) 0).length : ℝ) ∧
    out.metrics.r2 =
      ((groupMetricsList rand model (groupDataByTemperature data) 0).map
        Metrics.r2).sum /
        ((groupMetricsList rand model (groupDataByTemperature data) 0).length : ℝ) := by
  have hne : groupDataByTemperature data ≠ [] := by
    intro hnil
    simp [fitMicrobialModel, hnil] at h
  rw [fitM_ok_iff hne] at h
  subst h
  obtain ⟨h1, h2, h3, h4⟩ := fitMLoop_sums rand model (groupDataByTemperature data) 0
  refine ⟨?_, ?_, ?_, ?_⟩
  · simpa [fittedGroups] using
      groupMetricsList_length rand model (groupDataByTemperature data) 0
  · dsimp only
    rw [h1, h4]
  · dsimp only
    rw [h2, h4]
  · dsimp only
    rw [h3, h4]

/-- Witness for `c3_aggregate_metrics_mean` at `dataTwoGroups` (one fit
group, one skipped group) under the linear model. -/
theorem c3_witness :
    ∃ out, fitMicrobialModel zeroRand dataTwoGroups ModelM.linear = Except.ok out ∧
      out.metrics.r2 =
        ((groupMetricsList zeroRand ModelM.linear
          (groupDataByTemperature dataTwoGroups) 0).map Metrics.r2).sum /
          ((groupMetricsList zeroRand ModelM.linear
            (groupDataByTemperature dataTwoGroups) 0).length : ℝ) := by
  have hne : groupDataByTemperature dataTwoGroups ≠ [] := by
    with_unfolding_all exact List.cons_ne_nil _ _
  exact ⟨_, (fitM_ok_iff hne).mpr rfl,
    (c3_aggregate_metrics_mean zeroRand dataTwoGroups ModelM.linear _
      ((fitM_ok_iff hne).mpr rfl)).2.2.2⟩

/-- C10: every row of the fitted output of either fitter is one of the
input rows with every field — the normalised numeric fields and all
pass-through columns — unchanged, and only `microbe_fitted` set. -/
theorem c10_fitted_rows_preserve_fields :
    (∀ (data : List ExpectedRow) (model : Model8) (out : Fit8Result),
      fitMicrobialModel8 data model = Except.ok out →
      ∀ fr ∈ out.fittedData, ∃ r ∈ data, ∃ v : ℝ,
        fr = { r with microbe_fitted := some v }) ∧
    (∀ (rand : ℕ → ℝ) (data : List ExpectedRow) (model : ModelM)
        (out : FitMResult),
      fitMicrobialModel rand data model = Except.ok out →
      ∀ fr ∈ out.fittedData, ∃ r ∈ data, ∃ v : ℝ,
        fr = { r with microbe_fitted := some v }) := by
  constructor
  · intro data model out h fr hfr
    have hne : groupDataByTemperature data ≠ [] := by
      intro hnil
      simp [fitMicrobialModel8, hnil] at h
    rw [fit8_ok_iff hne] at h
    subst h
    obtain ⟨g, hg, row, hrow, v, rfl⟩ := fit8Loop_sources hfr
    exact ⟨row, mem_data_of_mem_group hg hrow, v, rfl⟩
  · intro rand data model out h fr hfr
    have hne : groupDataByTemperature data ≠ [] := by
      intro hnil
      simp [fitMicrobialModel, hnil] at h
    rw [fitM_ok_iff hne] at h
    subst h
    obtain ⟨g, hg, row, hrow, v, rfl⟩ := fitMLoop_sources hfr
    exact ⟨row, mem_data_of_mem_group hg hrow, v, rfl⟩

/-- Witness for `c10_fitted_rows_preserve_fields` at the Weibull fit of
`dataWeibull`. -/
theorem c10_witness :
    ∃ out, fitMicrobialModel8 dataWeibull Model8.weibull = Except.ok out ∧
      ∀ fr ∈ out.fittedData, ∃ r ∈ dataWeibull, ∃ v : ℝ,
        fr = { r with microbe_fitted := some v } := by
  have hne : groupDataByTemperature dataWeibull ≠ [] := by
    with_unfolding_all exact List.cons_ne_nil _ _
  exact ⟨_, (fit8_ok_iff hne).mpr rfl,
    c10_fitted_rows_preserve_fields.1 dataWeibull Model8.weibull _
      ((fit8_ok_iff hne).mpr rfl)⟩

/-- Sum of a constant map. -/
theorem sum_map_const_real (c : ℝ) :
    ∀ l : List ExpectedRow, (l.map (fun _ => c)).sum = l.length * c := by
  intro l
  induction l with
  | nil => simp
  | cons x xs ih =>
    simp [ih]
    ring

/-- C9: the per-group coefficient of determination of `computeMetrics` is
`1 − ssRes/ssTot` with `ssTot` taken about the group's own mean, and is
exactly `1` whenever `ssTot = 0` — in particular whenever every microbe
value of the group is one identical value — with no division by zero. -/
theorem c9_r2_group_mean_and_guard (valid : List ExpectedRow)
    (predictFn : ℝ → ℝ) (c : ℚ) :
    ((computeMetrics valid predictFn).r2 =
      if (valid.map (fun r => (microbeR r -
            (valid.map microbeR).sum / (valid.length : ℝ)) ^ 2)).sum = 0
      then 1
      else 1 - ((valid.map (fun r =>
            microbeR r - predictFn (timeR r))).map (fun e => e * e)).sum /
          (valid.map (fun r => (microbeR r -
            (valid.map microbeR).sum / (valid.length : ℝ)) ^ 2)).sum) ∧
    ((∀ r ∈ valid, r.microbe = some c) →
      (computeMetrics valid predictFn).r2 = 1) := by
  have hnn : 0 ≤ (valid.map (fun r => (microbeR r -
      (valid.map microbeR).sum / (valid.length : ℝ)) ^ 2)).sum := by
    refine List.sum_nonneg ?_
    intro x hx
    rw [List.mem_map] at hx
    obtain ⟨r, -, rfl⟩ := hx
    positivity
  constructor
  · simp only [computeMetrics]
    by_cases h0 : (valid.map (fun r => (microbeR r -
        (valid.map microbeR).sum / (valid.length : ℝ)) ^ 2)).sum = 0
    · rw [if_pos h0, h0]
      norm_num
    · rw [if_neg h0, if_pos (lt_of_le_of_ne hnn (Ne.symm h0))]
  · intro hall
    have hc : ∀ r ∈ valid, microbeR r = (c : ℝ) := by
      intro r hr
      rw [microbeR, microbeOr0, hall r hr]
      rfl
    have hTot : (valid.map (fun r => (microbeR r -
        (valid.map microbeR).sum / (valid.length : ℝ)) ^ 2)).sum = 0 := by
      by_cases hv : valid = []
      · subst hv
        simp
      · have hlen : (valid.length : ℝ) ≠ 0 := by
          simpa using fun h => hv (List.eq_nil_of_length_eq_zero h)
        have hsum : (valid.map microbeR).sum = valid.length * (c : ℝ) := by
          rw [List.map_congr_left hc, sum_map_const_real]
        have hyMean : (valid.map microbeR).sum / (valid.length : ℝ) = (c : ℝ) := by
          rw [hsum, mul_div_cancel_left₀ _ hlen]
        rw [hyMean]
        refine List.sum_eq_zero ?_
        intro x hx
        rw [List.mem_map] at hx
        obtain ⟨r, hr, rfl⟩ := hx
        rw [hc r hr]
        ring
    simp only [computeMetrics]
    rw [hTot]
    norm_num

/-- Witness for `c9_r2_group_mean_and_guard`: a two-row group whose
microbe values are both `10` has `r2 = 1` exactly. -/
theorem c9_witness :
    (computeMetrics [rowW0, rowT5] (fun t => t)).r2 = 1 :=
  (c9_r2_group_mean_and_guard [rowW0, rowT5] (fun t => t) 10).2 (by decide)
